import Mathlib

/-!
Verification of the connection capture and correlation engine of
`cloudnode-pro/request-catcher`, embedded shallowly from `src/WebServer.ts`.

Strings are modelled as `List Char` (one `Char` per byte/UTF-16 unit; the
payloads relevant here are ASCII). JavaScript truthiness on strings and
numbers is modelled explicitly: `undefined` and the empty string are falsy,
`undefined` and `0` are falsy ports.
-/

/-- Character used as the token separator in `packet.toString().split(" ")` (space, code 32). -/
def spaceChar : Char := Char.ofNat 32

/-- Character used for query-string detection, `url.indexOf("?")` (code 63). -/
def questionMark : Char := Char.ofNat 63

/-- Padding character of base64 (`=`, code 61). -/
def padChar : Char := Char.ofNat 61

/-- Characters kept by the regex `[a-zA-Z0-9]` in
`requestId = crypto.randomBytes(18).toString("base64").replace(/[^a-zA-Z0-9]/g, "")`. -/
def jsAlnum (c : Char) : Bool := c.isAlpha || c.isDigit

/-- Standard base64 alphabet, as used by `Buffer.toString("base64")`. -/
def base64Alphabet : List Char :=
  "ABCDEFGHIJKLMNOPQRSTUVWXYZabcdefghijklmnopqrstuvwxyz0123456789+/".data

/-- Character of the base64 alphabet at sextet value `n` (only called with `n < 64`). -/
def b64Char (n : Nat) : Char := base64Alphabet.getD n padChar

/-- Base64 encoding of a byte list, as produced by `Buffer.toString("base64")`.
Bytes are `Nat`s below 256; arithmetic on bytes is plain `Nat` division/modulo. -/
def base64Encode : List Nat → List Char
  | [] => []
  | [a] => [b64Char (a / 4), b64Char (a % 4 * 16), padChar, padChar]
  | [a, b] => [b64Char (a / 4), b64Char (a % 4 * 16 + b / 16), b64Char (b % 16 * 4), padChar]
  | a :: b :: c :: rest =>
    b64Char (a / 4) :: b64Char (a % 4 * 16 + b / 16) :: b64Char (b % 16 * 4 + c / 64)
      :: b64Char (c % 64) :: base64Encode rest

/-- Capture-identifier minting, `WebServer.ts` line 204:
`crypto.randomBytes(18).toString("base64").replace(/[^a-zA-Z0-9]/g, "").slice(0, 6)`.
The 18 random bytes drawn by `crypto.randomBytes` are the explicit argument. -/
def mintRequestId (randomBytes : List Nat) : List Char :=
  ((base64Encode randomBytes).filter jsAlnum).take 6

/-- JavaScript `String.prototype.split` with a single-character separator:
splits on every occurrence, keeping empty fragments (`"a  b".split(" ") = ["a","","b"]`,
`"".split(" ") = [""]`). -/
def splitOnChar (sep : Char) : List Char → List (List Char)
  | [] => [[]]
  | c :: rest =>
    match splitOnChar sep rest with
    | [] => [[]]
    | grp :: grps => if c = sep then [] :: grp :: grps else (c :: grp) :: grps

/-- JavaScript `String.prototype.indexOf` for a single character; `none` models `-1`. -/
def jsIndexOf (c : Char) : List Char → Option Nat
  | [] => none
  | x :: xs => if x = c then some 0 else (jsIndexOf c xs).map (· + 1)

/-- JavaScript `String.prototype.slice(start, end)` for nonnegative indices;
`none` for `end` models passing `undefined` (slice to the end of the string). -/
def jsSlice (s : List Char) (start : Nat) (stop : Option Nat) : List Char :=
  match stop with
  | none => s.drop start
  | some e => (s.take e).drop start

/-- JavaScript truthiness of a `string | undefined` value:
`undefined` and the empty string are falsy. -/
def jsTruthy : Option (List Char) → Bool
  | none => false
  | some s => !s.isEmpty

/-- Namespace extraction of the raw capture path, `WebServer.ts` line 203:
`url.slice(3, url.indexOf("?") === -1 ? undefined : url.indexOf("?"))`. -/
def namespaceOfUrlRaw (url : List Char) : List Char :=
  jsSlice url 3 (jsIndexOf questionMark url)

/-- Namespace extraction of the structured acknowledgement path, `WebServer.ts` line 182:
`req.url!.slice(3, req.url!.indexOf("?") === -1 ? undefined : req.url!.indexOf("?"))`. -/
def namespaceOfUrlParsed (url : List Char) : List Char :=
  jsSlice url 3 (jsIndexOf questionMark url)

/-- Namespace extraction as the spec words it: everything after the three-character
capture-endpoint marker `/s/` up to and excluding the start of a query string when a
`?` is present, otherwise everything after the marker. -/
def namespaceSpec (url : List Char) : List Char :=
  (url.drop 3).takeWhile (fun c => !(c == questionMark))

/-- The capture-endpoint marker `/s/` as a character list. -/
def capMarker : List Char := "/s/".data

/-- Value stored in the `connections` map: `{req: string, time: number}`. -/
structure ConnEntry where
  req : List Char
  time : Int
deriving DecidableEq, Repr

/-- The correlation table `connections : Map<number, {req: string, time: number}>`,
modelled as an association list with `Map` semantics (at most one value per key,
`set` replaces in place). -/
abbrev ConnTable := List (Nat × ConnEntry)

/-- `Map.prototype.get`. -/
def tableGet (t : ConnTable) (port : Nat) : Option ConnEntry :=
  (t.find? (fun e => e.fst == port)).map (fun e => e.snd)

/-- `Map.prototype.set`: replaces the value in place when the key exists, appends otherwise. -/
def tableSet : ConnTable → Nat → ConnEntry → ConnTable
  | [], port, v => [(port, v)]
  | (p, e) :: rest, port, v =>
    if p = port then (p, v) :: rest else (p, e) :: tableSet rest port v

/-- `Map.prototype.delete`. -/
def tableDelete (t : ConnTable) (port : Nat) : ConnTable :=
  t.filter (fun e => !(e.fst == port))

/-- `getRequestId` (`WebServer.ts` lines 134-142): the take-and-remove operation.
`remotePort` is `socket.remotePort : number | undefined`; `if (!port) return;` makes
both `undefined` and `0` fail the lookup. Returns the taken request id (if any) and
the updated table. -/
def getRequestId (t : ConnTable) (remotePort : Option Nat) : Option (List Char) × ConnTable :=
  match remotePort with
  | none => (none, t)
  | some port =>
    if port = 0 then (none, t)
    else
      match tableGet t port with
      | none => (none, t)
      | some connection => (some connection.req, tableDelete t port)

/-- `cleanUpConnections` (`WebServer.ts` lines 124-128): the sweep. Deletes every
entry with `now - time > 30000`, keeps the rest. -/
def cleanUpConnections (now : Int) (t : ConnTable) : ConnTable :=
  t.filter (fun e => !(decide (now - e.snd.time > 30000)))

/-- Parsed request metadata available to `respondToSRequest` from the
`http.IncomingMessage`. -/
structure ReqMeta where
  rawHeaders : List (List Char)
  httpVersion : List Char
  method : List Char
  url : List Char
  localPort : Nat
deriving DecidableEq, Repr

/-- Observable action of one `respondToSRequest` call chain: scheduling a retry
(`setTimeout`), writing a response (`res.writeHead` + `res.end`), or emitting the
`end` event to the namespace room. -/
inductive SAction where
  | scheduleRetry : SAction
  | respond (status : Nat) (body : List Char) : SAction
  | emitEnd (nsTopic requestId : List Char) (headers : List (List Char))
      (httpVersion method url scheme : List Char) : SAction
deriving DecidableEq, Repr

/-- Actions of the success branch of `respondToSRequest` (lines 181-186): respond
`204` with no body, then emit `end` with the parsed metadata; the scheme is
`req.socket.localPort === this.ports.https ? "https" : "http"`. -/
def sSuccessActions (httpsPort : Nat) (meta : ReqMeta) (requestId : Option (List Char)) :
    List SAction :=
  [SAction.respond 204 [],
   SAction.emitEnd (namespaceOfUrlParsed meta.url) (requestId.getD []) meta.rawHeaders
     meta.httpVersion meta.method meta.url
     (if meta.localPort = httpsPort then "https".data else "http".data)]

/-- Recursion core of `respondToSRequest`, structural on the number of retries still
allowed, `r = 3 - n` (the source recurses on the attempt counter `n`, bounded by the
guard `n < 3`; `r` decreases exactly when the source increments `n`). `lookup n` is
the value `this.getRequestId(req)` returns at attempt `n`, abstracting the evolving
table between asynchronous attempts. -/
def respondRec (httpsPort : Nat) (meta : ReqMeta) (lookup : Nat → Option (List Char)) :
    Nat → List SAction
  | 0 =>
    let requestId := lookup 3
    if jsTruthy requestId then sSuccessActions httpsPort meta requestId
    else [SAction.respond 500 ("internal server error".data)]
  | rr + 1 =>
    let requestId := lookup (3 - (rr + 1))
    if jsTruthy requestId then sSuccessActions httpsPort meta requestId
    else SAction.scheduleRetry :: respondRec httpsPort meta lookup rr

/-- `respondToSRequest` (`WebServer.ts` lines 172-187) starting at attempt `n`,
as the list of actions of the whole (initial call plus scheduled retries) chain. -/
def respondToSRequest (httpsPort : Nat) (meta : ReqMeta) (lookup : Nat → Option (List Char))
    (n : Nat) : List SAction :=
  respondRec httpsPort meta lookup (3 - n)

/-- Number of responses (`res.writeHead`/`res.end` pairs) in an action list. -/
def countResponses (l : List SAction) : Nat :=
  l.countP (fun a => match a with | SAction.respond _ _ => true | _ => false)

/-- Whether an action is the `end` event emission. -/
def isEmitEnd : SAction → Bool
  | SAction.emitEnd _ _ _ _ _ _ _ => true
  | _ => false

/-- Addressing data of one accepted socket (`net.Socket`); `remotePort` is
`number | undefined`. -/
structure ConnCtx where
  remotePort : Option Nat
  remoteAddress : List Char
  localAddress : List Char
  localPort : Nat
deriving DecidableEq, Repr

/-- Per-connection state of `connectionHandler`: the socket byte counter and the two
closure variables `let socketId: string` and `let requestId: string` (`none` while
still `undefined`). -/
structure ConnState where
  bytesRead : Nat
  socketId : Option (List Char)
  requestId : Option (List Char)
deriving DecidableEq, Repr

/-- Initial state of a fresh connection. -/
def initConnState : ConnState := { bytesRead := 0, socketId := none, requestId := none }

/-- Event published to the websocket namespace room: `request` (Begin), `data`,
or `end`. Each carries the room (namespace) it is sent to and the capture
(request) identifier; `dataEv` carries the raw packet bytes. The full parsed
metadata of the `end` emission is modelled in `SAction.emitEnd`. -/
inductive Event where
  | beginEv (nsTopic requestId : List Char) (remoteAddress localAddress : List Char)
      (localPort : Nat) (time : Int) : Event
  | dataEv (nsTopic requestId : List Char) (packet : List Char) : Event
  | endEv (nsTopic requestId : List Char) : Event
deriving DecidableEq, Repr

/-- One invocation of the `data` listener of `connectionHandler`
(`WebServer.ts` lines 196-213). `socket.bytesRead` already includes the current
packet when the listener runs, so the first-packet test
`socket.bytesRead === packet.length` compares `st.bytesRead + packet.length`
with `packet.length`. `ridBytes` is the byte string drawn by
`crypto.randomBytes(18)` for this connection's mint. Returns the updated state,
the updated correlation table, and the events published by this invocation. -/
def dataStep (ctx : ConnCtx) (ridBytes : List Nat) (now : Int)
    (st : ConnState) (table : ConnTable) (packet : List Char) :
    ConnState × ConnTable × List Event :=
  let bytesRead := st.bytesRead + packet.length
  let first : Bool := bytesRead == packet.length
  let parts := splitOnChar spaceChar packet
  if first && decide (parts.length < 2) then
    ({ st with bytesRead := bytesRead }, table, [])
  else
    let url := (parts.get? 1).getD []
    let mintNow : Bool := first && capMarker.isPrefixOf url
    let st1 : ConnState :=
      if mintNow then
        { bytesRead := bytesRead,
          socketId := some (namespaceOfUrlRaw url),
          requestId := some (mintRequestId ridBytes) }
      else { st with bytesRead := bytesRead }
    let table1 : ConnTable :=
      if mintNow then
        match ctx.remotePort with
        | some port => if port = 0 then table else tableSet table port ⟨mintRequestId ridBytes, now⟩
        | none => table
      else table
    let evs1 : List Event :=
      if mintNow then
        [Event.beginEv (namespaceOfUrlRaw url) (mintRequestId ridBytes)
          ctx.remoteAddress ctx.localAddress ctx.localPort now]
      else []
    if jsTruthy st1.socketId then
      (st1, table1, evs1 ++ [Event.dataEv (st1.socketId.getD []) (st1.requestId.getD []) packet])
    else (st1, table1, evs1)

/-- Table effect and event emission of one `respondToSRequest` attempt for this
connection (the responses and full `end` payload are modelled in
`respondToSRequest`; this captures the take-and-remove on the shared table and the
`end` event published in the success branch, lines 173 and 181-185). -/
def ackStep (ctx : ConnCtx) (table : ConnTable) (url : List Char) : ConnTable × List Event :=
  let taken := getRequestId table ctx.remotePort
  if jsTruthy taken.fst then
    (taken.snd, [Event.endEv (namespaceOfUrlParsed url) (taken.fst.getD [])])
  else (taken.snd, [])

/-- Interleaving step of one connection's lifecycle: a chunk arriving on the raw
socket, or one acknowledgement-path attempt (initial call or a scheduled retry)
running against the current table. -/
inductive Step where
  | data (packet : List Char) : Step
  | ack (url : List Char) : Step
deriving DecidableEq, Repr

/-- Result of running a connection schedule: final state, final table, events in
publish order. -/
structure RunOut where
  state : ConnState
  table : ConnTable
  events : List Event
deriving DecidableEq, Repr

/-- Run a schedule of interleaved data/ack steps for one connection, starting from
state `st` and correlation table `table`. -/
def runConn (ctx : ConnCtx) (ridBytes : List Nat) (now : Int) :
    ConnState → ConnTable → List Step → RunOut
  | st, table, [] => ⟨st, table, []⟩
  | st, table, Step.data p :: rest =>
    let out1 := dataStep ctx ridBytes now st table p
    let out := runConn ctx ridBytes now out1.fst out1.snd.fst rest
    ⟨out.state, out.table, out1.snd.snd ++ out.events⟩
  | st, table, Step.ack url :: rest =>
    let out1 := ackStep ctx table url
    let out := runConn ctx ridBytes now st out1.fst rest
    ⟨out.state, out.table, out1.snd ++ out.events⟩

/-- Run a schedule for a single fresh connection against an initially empty table. -/
def connRun (ctx : ConnCtx) (ridBytes : List Nat) (now : Int) (steps : List Step) : RunOut :=
  runConn ctx ridBytes now initConnState [] steps

/-- Whether an event is a Begin (`request`) event. -/
def isBeginE : Event → Bool
  | Event.beginEv _ _ _ _ _ _ => true
  | _ => false

/-- Whether an event is an End (`end`) event. -/
def isEndE : Event → Bool
  | Event.endEv _ _ => true
  | _ => false

/-- Byte chunks of the Data events of an event list, in publish order. -/
def dataPayloads (evs : List Event) : List (List Char) :=
  evs.filterMap (fun e => match e with | Event.dataEv _ _ p => some p | _ => none)

/-- Packets of the data steps of a schedule, in arrival order. -/
def stepPackets (steps : List Step) : List (List Char) :=
  steps.filterMap (fun s => match s with | Step.data p => some p | _ => none)

/-- Outcome of `requestHandler`: the responses written (status, content type, body),
whether the request was delegated to `respondToSRequest`, the table (untouched by
this handler) and the events it publishes (none). -/
structure HandlerOut where
  responses : List (Nat × List Char × List Char)
  delegated : Bool
  table : ConnTable
  events : List Event
deriving DecidableEq, Repr

/-- Lookup in the `staticFiles` record (`path -> (content type, data)`). -/
def lookupFile (files : List (List Char × List Char × List Char)) (u : List Char) :
    Option (List Char × List Char) :=
  (files.find? (fun f => f.fst == u)).map (fun f => f.snd)

/-- `requestHandler` (`WebServer.ts` lines 149-164). `url` models
`req.url : string | undefined`; `if (!req.url)` is falsy for both `undefined` and
the empty string. `home` is the pre-processed home page body. The `/s/` branch
delegates to `respondToSRequest` (modelled separately) and is marked
`delegated`. -/
def requestHandler (files : List (List Char × List Char × List Char)) (home : List Char)
    (url : Option (List Char)) (table : ConnTable) : HandlerOut :=
  if jsTruthy url = false then
    ⟨[(400, "text/plain".data, "bad request".data)], false, table, []⟩
  else
    let u := url.getD []
    if capMarker.isPrefixOf u then ⟨[], true, table, []⟩
    else
      match (if u = "/".data then none else lookupFile files u) with
      | some f => ⟨[(200, f.fst, f.snd)], false, table, []⟩
      | none => ⟨[(200, "text/html".data, home)], false, table, []⟩

theorem tableGet_tableDelete (t : ConnTable) (p : Nat) :
    tableGet (tableDelete t p) p = none := by
  induction t with
  | nil => rfl
  | cons x rest ih =>
    by_cases h : (x.fst == p) = true
    · have hd : tableDelete (x :: rest) p = tableDelete rest p := by
        simp [tableDelete, List.filter_cons, h]
      rw [hd]
      exact ih
    · have hfa : (x.fst == p) = false := by simpa using h
      have hd : tableDelete (x :: rest) p = x :: tableDelete rest p := by
        simp [tableDelete, List.filter_cons, hfa]
      rw [hd]
      simp only [tableGet, List.find?, hfa] at ih ⊢
      exact ih

theorem tableDelete_of_short (t : ConnTable) (p : Nat) (e : ConnEntry)
    (hlen : t.length ≤ 1) (hget : tableGet t p = some e) : tableDelete t p = [] := by
  match t with
  | [] => simp [tableGet] at hget
  | [x] =>
    by_cases h : (x.fst == p) = true
    · simp [tableDelete, List.filter_cons, h]
    · exfalso
      have hfa : (x.fst == p) = false := by simpa using h
      simp only [tableGet, List.find?, hfa] at hget
      simp at hget
  | x :: y :: rest => simp at hlen

theorem respondToSRequest_unfold (P : Nat) (meta : ReqMeta)
    (lookup : Nat → Option (List Char)) (n : Nat) (h : n ≤ 3) :
    respondToSRequest P meta lookup n =
      if jsTruthy (lookup n) then sSuccessActions P meta (lookup n)
      else if n < 3 then SAction.scheduleRetry :: respondToSRequest P meta lookup (n + 1)
      else [SAction.respond 500 ("internal server error".data)] := by
  unfold respondToSRequest
  rcases Nat.lt_or_ge n 3 with hlt | hge
  · have hr : 3 - n = (3 - (n + 1)) + 1 := by omega
    rw [hr]
    simp only [respondRec]
    have hn : 3 - (3 - (n + 1) + 1) = n := by omega
    rw [hn]
    simp [hlt]
  · have h3 : n = 3 := by omega
    subst h3
    simp only [Nat.sub_self, respondRec]
    simp

theorem countResponses_respondRec (P : Nat) (meta : ReqMeta)
    (lookup : Nat → Option (List Char)) :
    ∀ r, countResponses (respondRec P meta lookup r) = 1 := by
  intro r
  induction r with
  | zero =>
    by_cases h : jsTruthy (lookup 3)
    · simp [respondRec, h, countResponses, sSuccessActions, List.countP_cons]
    · simp [respondRec, h, countResponses, List.countP_cons]
  | succ rr ih =>
    by_cases h : jsTruthy (lookup (2 - rr))
    · simp [respondRec, h, countResponses, sSuccessActions, List.countP_cons]
    · simp only [countResponses] at ih
      simp [respondRec, h, countResponses, List.countP_cons, ih]

theorem respond_success_trace (P : Nat) (meta : ReqMeta)
    (lookup : Nat → Option (List Char)) :
    ∀ m n, n + m ≤ 3 → (∀ k, n ≤ k → k < n + m → jsTruthy (lookup k) = false) →
      jsTruthy (lookup (n + m)) = true →
      respondToSRequest P meta lookup n =
        List.replicate m SAction.scheduleRetry ++ sSuccessActions P meta (lookup (n + m)) := by
  intro m
  induction m with
  | zero =>
    intro n h1 h2 h3
    rw [respondToSRequest_unfold _ _ _ _ (by omega)]
    simp only [Nat.add_zero] at h3
    simp [h3]
  | succ mm ih =>
    intro n h1 h2 h3
    have hfal : jsTruthy (lookup n) = false := h2 n (Nat.le_refl n) (by omega)
    rw [respondToSRequest_unfold _ _ _ _ (by omega)]
    have hlt : n < 3 := by omega
    have heq : n + 1 + mm = n + (mm + 1) := by omega
    have hrest := ih (n + 1) (by omega)
      (fun k hk1 hk2 => h2 k (by omega) (by omega))
      (by rw [heq]; exact h3)
    rw [hfal]
    simp only [Bool.false_eq_true, if_false, if_pos hlt, hrest, List.replicate_succ,
      List.cons_append, heq]

theorem respond_failure_trace (P : Nat) (meta : ReqMeta)
    (lookup : Nat → Option (List Char))
    (h : ∀ k, k ≤ 3 → jsTruthy (lookup k) = false) :
    respondToSRequest P meta lookup 0 =
      [SAction.scheduleRetry, SAction.scheduleRetry, SAction.scheduleRetry,
       SAction.respond 500 ("internal server error".data)] := by
  rw [respondToSRequest_unfold _ _ _ 0 (by omega), h 0 (by omega)]
  rw [respondToSRequest_unfold _ _ _ 1 (by omega), h 1 (by omega)]
  rw [respondToSRequest_unfold _ _ _ 2 (by omega), h 2 (by omega)]
  rw [respondToSRequest_unfold _ _ _ 3 (by omega), h 3 (by omega)]
  simp

theorem splitOnChar_ne_nil_of_two (sep : Char) (p : List Char)
    (h : ¬(splitOnChar sep p).length < 2) : p ≠ [] := by
  intro hp
  subst hp
  simp [splitOnChar] at h

theorem dataStep_not_first (ctx : ConnCtx) (ridBytes : List Nat) (now : Int)
    (st : ConnState) (table : ConnTable) (p : List Char) (h : st.bytesRead ≠ 0) :
    dataStep ctx ridBytes now st table p =
      ({ st with bytesRead := st.bytesRead + p.length }, table,
       if jsTruthy st.socketId then
         [Event.dataEv (st.socketId.getD []) (st.requestId.getD []) p]
       else []) := by
  have hfirst : (st.bytesRead + p.length == p.length) = false :=
    beq_eq_false_iff_ne.mpr (by omega)
  by_cases hs : jsTruthy st.socketId
  · simp [dataStep, hfirst, hs]
  · simp [dataStep, hfirst, hs]

theorem dataStep_first_short (ctx : ConnCtx) (ridBytes : List Nat) (now : Int)
    (st : ConnState) (table : ConnTable) (p : List Char) (h0 : st.bytesRead = 0)
    (hshort : (splitOnChar spaceChar p).length < 2) :
    dataStep ctx ridBytes now st table p = ({ st with bytesRead := p.length }, table, []) := by
  simp [dataStep, h0, hshort]

theorem dataStep_first_nomatch (ctx : ConnCtx) (ridBytes : List Nat) (now : Int)
    (st : ConnState) (table : ConnTable) (p : List Char) (h0 : st.bytesRead = 0)
    (hlong : ¬(splitOnChar spaceChar p).length < 2)
    (hns : capMarker.isPrefixOf ((splitOnChar spaceChar p)[1]?.getD []) = false) :
    dataStep ctx ridBytes now st table p =
      ({ st with bytesRead := p.length }, table,
       if jsTruthy st.socketId then
         [Event.dataEv (st.socketId.getD []) (st.requestId.getD []) p]
       else []) := by
  have hns2 : ¬ capMarker <+: ((splitOnChar spaceChar p)[1]?.getD []) := by
    intro hc
    rw [← List.isPrefixOf_iff_prefix, hns] at hc
    exact Bool.false_ne_true hc
  by_cases hs : jsTruthy st.socketId
  · simp [dataStep, h0, hlong, hns2, hs]
  · simp [dataStep, h0, hlong, hns2, hs]

theorem dataStep_first_mint (ctx : ConnCtx) (ridBytes : List Nat) (now : Int)
    (st : ConnState) (table : ConnTable) (p : List Char) (h0 : st.bytesRead = 0)
    (hlong : ¬(splitOnChar spaceChar p).length < 2)
    (hns : capMarker.isPrefixOf ((splitOnChar spaceChar p)[1]?.getD []) = true) :
    dataStep ctx ridBytes now st table p =
      (⟨p.length,
        some (namespaceOfUrlRaw ((splitOnChar spaceChar p)[1]?.getD [])),
        some (mintRequestId ridBytes)⟩,
       (match ctx.remotePort with
        | some port =>
          if port = 0 then table else tableSet table port ⟨mintRequestId ridBytes, now⟩
        | none => table),
       Event.beginEv (namespaceOfUrlRaw ((splitOnChar spaceChar p)[1]?.getD []))
           (mintRequestId ridBytes) ctx.remoteAddress ctx.localAddress ctx.localPort now ::
         (if jsTruthy (some (namespaceOfUrlRaw ((splitOnChar spaceChar p)[1]?.getD [])))
          then [Event.dataEv (namespaceOfUrlRaw ((splitOnChar spaceChar p)[1]?.getD []))
                  (mintRequestId ridBytes) p]
          else [])) := by
  have hns2 : capMarker <+: ((splitOnChar spaceChar p)[1]?.getD []) :=
    List.isPrefixOf_iff_prefix.mp hns
  by_cases he : jsTruthy (some (namespaceOfUrlRaw ((splitOnChar spaceChar p)[1]?.getD [])))
  · simp [dataStep, h0, hlong, hns2, he]
  · simp [dataStep, h0, hlong, hns2, he]

theorem getRequestId_nil (rp : Option Nat) : getRequestId [] rp = (none, []) := by
  cases rp with
  | none => rfl
  | some port =>
    by_cases h : port = 0
    · simp [getRequestId, h]
    · simp [getRequestId, h, tableGet]

theorem ackStep_nil (ctx : ConnCtx) (url : List Char) : ackStep ctx [] url = ([], []) := by
  simp [ackStep, getRequestId_nil, jsTruthy]

theorem ackStep_spec (ctx : ConnCtx) (table : ConnTable) (url : List Char) :
    ackStep ctx table url = (table, []) ∨
    ∃ port e, ctx.remotePort = some port ∧ tableGet table port = some e ∧
      ackStep ctx table url = (tableDelete table port,
        if jsTruthy (some e.req) then [Event.endEv (namespaceOfUrlParsed url) e.req]
        else []) := by
  cases hrp : ctx.remotePort with
  | none => left; simp [ackStep, getRequestId, hrp, jsTruthy]
  | some port =>
    by_cases hp : port = 0
    · left; simp [ackStep, getRequestId, hrp, hp, jsTruthy]
    · cases hg : tableGet table port with
      | none => left; simp [ackStep, getRequestId, hrp, hp, hg, jsTruthy]
      | some e =>
        right
        refine ⟨port, e, rfl, hg, ?_⟩
        by_cases he : jsTruthy (some e.req)
        · simp [ackStep, getRequestId, hrp, hp, hg, he]
        · simp [ackStep, getRequestId, hrp, hp, hg, he]

theorem tableGet_ne_nil (table : ConnTable) (port : Nat) (e : ConnEntry)
    (hg : tableGet table port = some e) : 1 ≤ table.length := by
  cases table with
  | nil => simp [tableGet] at hg
  | cons x rest => simp

theorem runConn_socketId_const (ctx : ConnCtx) (ridBytes : List Nat) (now : Int) :
    ∀ steps (st : ConnState) (table : ConnTable), st.bytesRead ≠ 0 →
      ((runConn ctx ridBytes now st table steps).state.socketId = st.socketId ∧
       (runConn ctx ridBytes now st table steps).state.bytesRead ≠ 0) := by
  intro steps
  induction steps with
  | nil => intro st table h; exact ⟨rfl, h⟩
  | cons s rest ih =>
    intro st table h
    cases s with
    | data p =>
      have hd := dataStep_not_first ctx ridBytes now st table p h
      have hb : ({ st with bytesRead := st.bytesRead + p.length } : ConnState).bytesRead ≠ 0 := by
        simp
        omega
      rcases ih { st with bytesRead := st.bytesRead + p.length } table hb with ⟨h1, h2⟩
      constructor
      · simp only [runConn, hd]
        simpa using h1
      · simp only [runConn, hd]
        simpa using h2
    | ack url =>
      rcases ih st (ackStep ctx table url).fst h with ⟨h1, h2⟩
      constructor
      · simp only [runConn]
        simpa using h1
      · simp only [runConn]
        simpa using h2

theorem runConn_post (ctx : ConnCtx) (ridBytes : List Nat) (now : Int) :
    ∀ steps (st : ConnState) (table : ConnTable), st.bytesRead ≠ 0 → table.length ≤ 1 →
      ((runConn ctx ridBytes now st table steps).events.all (fun e => !isBeginE e) = true ∧
       (runConn ctx ridBytes now st table steps).events.countP isEndE ≤ table.length) := by
  intro steps
  induction steps with
  | nil =>
    intro st table h hl
    simp [runConn]
  | cons s rest ih =>
    intro st table h hl
    cases s with
    | data p =>
      have hd := dataStep_not_first ctx ridBytes now st table p h
      have hb : ({ st with bytesRead := st.bytesRead + p.length } : ConnState).bytesRead ≠ 0 := by
        simp
        omega
      rcases ih { st with bytesRead := st.bytesRead + p.length } table hb hl with ⟨h1, h2⟩
      by_cases hs : jsTruthy st.socketId
      · simp only [runConn, hd, hs, if_pos]
        constructor
        · simpa [isBeginE] using h1
        · simpa [List.countP_cons, isEndE] using h2
      · simp only [runConn, hd, hs]
        constructor
        · simpa [hs] using h1
        · simpa [hs, List.countP_cons, isEndE] using h2
    | ack url =>
      rcases ackStep_spec ctx table url with hspec | ⟨port, e, hrp, hg, hspec⟩
      · rcases ih st table h hl with ⟨h1, h2⟩
        simp only [runConn, hspec]
        exact ⟨by simpa using h1, by simpa using h2⟩
      · have hdel : tableDelete table port = [] := tableDelete_of_short table port e hl hg
        have hlen1 : 1 ≤ table.length := tableGet_ne_nil table port e hg
        rcases ih st (tableDelete table port) h (by simp [hdel]) with ⟨h1, h2⟩
        have hlz : (tableDelete table port).length = 0 := by rw [hdel]; rfl
        have h2z : (runConn ctx ridBytes now st (tableDelete table port) rest).events.countP
            isEndE = 0 := by
          omega
        by_cases he : jsTruthy (some e.req)
        · simp only [runConn, hspec, if_pos he]
          constructor
          · simpa [isBeginE] using h1
          · simp only [List.singleton_append, List.countP_cons]
            simp [isEndE]
            omega
        · simp only [runConn, hspec, if_neg he]
          constructor
          · simpa using h1
          · simp only [List.nil_append]
            omega

theorem mintTable_len (ctx : ConnCtx) (rid : List Char) (now : Int) :
    (match ctx.remotePort with
     | some port => if port = 0 then ([] : ConnTable) else tableSet [] port ⟨rid, now⟩
     | none => ([] : ConnTable)).length ≤ 1 := by
  cases ctx.remotePort with
  | none => simp
  | some port =>
    by_cases h : port = 0
    · simp [h]
    · simp [h, tableSet]

theorem runConn_pre (ctx : ConnCtx) (ridBytes : List Nat) (now : Int) :
    ∀ steps (st : ConnState), st.socketId = none →
      ((runConn ctx ridBytes now st [] steps).events = [] ∨
       ∃ b rest2, (runConn ctx ridBytes now st [] steps).events = b :: rest2 ∧
         isBeginE b = true ∧ rest2.all (fun e => !isBeginE e) = true ∧
         rest2.countP isEndE ≤ 1) := by
  intro steps
  induction steps with
  | nil => intro st _; left; rfl
  | cons s rest ih =>
    intro st hsock
    cases s with
    | ack url =>
      rcases ih st hsock with h | ⟨b, r2, he, hbb, ha, hc⟩
      · left
        simp only [runConn, ackStep_nil]
        simpa using h
      · right
        refine ⟨b, r2, ?_, hbb, ha, hc⟩
        simp only [runConn, ackStep_nil]
        simpa using he
    | data p =>
      by_cases hb0 : st.bytesRead = 0
      · by_cases hshort : (splitOnChar spaceChar p).length < 2
        · have hd := dataStep_first_short ctx ridBytes now st [] p hb0 hshort
          rcases ih { st with bytesRead := p.length } (by simp [hsock]) with h | ⟨b, r2, he, hbb, ha, hc⟩
          · left
            simp only [runConn, hd]
            simpa using h
          · right
            refine ⟨b, r2, ?_, hbb, ha, hc⟩
            simp only [runConn, hd]
            simpa using he
        · by_cases hpre : capMarker.isPrefixOf ((splitOnChar spaceChar p)[1]?.getD []) = true
          · have hd := dataStep_first_mint ctx ridBytes now st [] p hb0 hshort hpre
            have hpne : p ≠ [] := splitOnChar_ne_nil_of_two spaceChar p hshort
            have hlen : p.length ≠ 0 := by
              intro hz
              exact hpne (List.length_eq_zero.mp hz)
            have hev : (runConn ctx ridBytes now st [] (Step.data p :: rest)).events =
                Event.beginEv (namespaceOfUrlRaw ((splitOnChar spaceChar p)[1]?.getD []))
                    (mintRequestId ridBytes) ctx.remoteAddress ctx.localAddress ctx.localPort
                    now ::
                  ((if jsTruthy (some (namespaceOfUrlRaw ((splitOnChar spaceChar p)[1]?.getD [])))
                    then [Event.dataEv (namespaceOfUrlRaw ((splitOnChar spaceChar p)[1]?.getD []))
                            (mintRequestId ridBytes) p]
                    else []) ++
                    (runConn ctx ridBytes now
                      ⟨p.length,
                       some (namespaceOfUrlRaw ((splitOnChar spaceChar p)[1]?.getD [])),
                       some (mintRequestId ridBytes)⟩
                      (match ctx.remotePort with
                       | some port =>
                         if port = 0 then []
                         else tableSet [] port ⟨mintRequestId ridBytes, now⟩
                       | none => []) rest).events) := by
              simp only [runConn, hd, List.cons_append]
            rcases runConn_post ctx ridBytes now rest
                ⟨p.length,
                 some (namespaceOfUrlRaw ((splitOnChar spaceChar p)[1]?.getD [])),
                 some (mintRequestId ridBytes)⟩
                (match ctx.remotePort with
                 | some port =>
                   if port = 0 then []
                   else tableSet [] port ⟨mintRequestId ridBytes, now⟩
                 | none => []) (by simpa using hlen)
                (mintTable_len ctx (mintRequestId ridBytes) now) with ⟨hA, hC⟩
            right
            refine ⟨_, _, hev, rfl, ?_, ?_⟩
            · rw [List.all_append, Bool.and_eq_true]
              refine ⟨?_, hA⟩
              by_cases hjs : jsTruthy
                  (some (namespaceOfUrlRaw ((splitOnChar spaceChar p)[1]?.getD [])))
              · simp [hjs, isBeginE]
              · simp [hjs]
            · rw [List.countP_append]
              have hC2 : (runConn ctx ridBytes now
                  ⟨p.length,
                   some (namespaceOfUrlRaw ((splitOnChar spaceChar p)[1]?.getD [])),
                   some (mintRequestId ridBytes)⟩
                  (match ctx.remotePort with
                   | some port =>
                     if port = 0 then []
                     else tableSet [] port ⟨mintRequestId ridBytes, now⟩
                   | none => []) rest).events.countP isEndE ≤ 1 :=
                Nat.le_trans hC (mintTable_len ctx (mintRequestId ridBytes) now)
              have hitecnt : (if jsTruthy
                  (some (namespaceOfUrlRaw ((splitOnChar spaceChar p)[1]?.getD [])))
                  then [Event.dataEv (namespaceOfUrlRaw ((splitOnChar spaceChar p)[1]?.getD []))
                          (mintRequestId ridBytes) p]
                  else []).countP isEndE = 0 := by
                by_cases hjs : jsTruthy
                    (some (namespaceOfUrlRaw ((splitOnChar spaceChar p)[1]?.getD [])))
                · simp [hjs, isEndE]
                · simp [hjs]
              omega
          · have hpre2 : capMarker.isPrefixOf ((splitOnChar spaceChar p)[1]?.getD []) = false :=
              Bool.eq_false_iff.mpr hpre
            have hd := dataStep_first_nomatch ctx ridBytes now st [] p hb0 hshort hpre2
            have hs : jsTruthy st.socketId = false := by rw [hsock]; rfl
            rcases ih { st with bytesRead := p.length } (by simp [hsock]) with h | ⟨b, r2, he, hbb, ha, hc⟩
            · left
              simp only [runConn, hd, hs]
              simpa using h
            · right
              refine ⟨b, r2, ?_, hbb, ha, hc⟩
              simp only [runConn, hd, hs]
              simpa using he
      · have hd := dataStep_not_first ctx ridBytes now st [] p hb0
        have hs : jsTruthy st.socketId = false := by rw [hsock]; rfl
        rcases ih { st with bytesRead := st.bytesRead + p.length } (by simp [hsock]) with h | ⟨b, r2, he, hbb, ha, hc⟩
        · left
          simp only [runConn, hd, hs]
          simpa using h
        · right
          refine ⟨b, r2, ?_, hbb, ha, hc⟩
          simp only [runConn, hd, hs]
          simpa using he

theorem dataPayloads_append (l1 l2 : List Event) :
    dataPayloads (l1 ++ l2) = dataPayloads l1 ++ dataPayloads l2 :=
  List.filterMap_append l1 l2 _

theorem ackStep_no_data (ctx : ConnCtx) (table : ConnTable) (url : List Char) :
    dataPayloads (ackStep ctx table url).snd = [] := by
  by_cases h : jsTruthy (getRequestId table ctx.remotePort).fst
  · simp [ackStep, h, dataPayloads]
  · simp [ackStep, h, dataPayloads]

theorem runConn_data_exact (ctx : ConnCtx) (ridBytes : List Nat) (now : Int) :
    ∀ steps (st : ConnState) (table : ConnTable), st.bytesRead ≠ 0 →
      jsTruthy st.socketId = true →
      dataPayloads (runConn ctx ridBytes now st table steps).events = stepPackets steps := by
  intro steps
  induction steps with
  | nil =>
    intro st table h hs
    simp [runConn, dataPayloads, stepPackets]
  | cons s rest ih =>
    intro st table h hs
    cases s with
    | data p =>
      have hd := dataStep_not_first ctx ridBytes now st table p h
      have hb : ({ st with bytesRead := st.bytesRead + p.length } : ConnState).bytesRead ≠ 0 := by
        simp
        omega
      have hrec := ih { st with bytesRead := st.bytesRead + p.length } table hb (by simpa using hs)
      simp only [runConn, hd, hs, if_pos]
      simp only [dataPayloads_append]
      simp only [dataPayloads, stepPackets] at hrec
      simp [dataPayloads, stepPackets, hrec]
    | ack url =>
      have hnd := ackStep_no_data ctx table url
      have hrec := ih st (ackStep ctx table url).fst h hs
      simp only [runConn]
      simp only [dataPayloads_append]
      simp [hnd, stepPackets, hrec]

theorem runConn_roundtrip_gen (ctx : ConnCtx) (ridBytes : List Nat) (now : Int) :
    ∀ steps (st : ConnState) (table : ConnTable), st.socketId = none → st.bytesRead = 0 →
      jsTruthy ((runConn ctx ridBytes now st table steps).state.socketId) = true →
      (dataPayloads (runConn ctx ridBytes now st table steps).events).flatten =
        (stepPackets steps).flatten := by
  intro steps
  induction steps with
  | nil =>
    intro st table hsock hb hfin
    exfalso
    simp only [runConn] at hfin
    rw [hsock] at hfin
    simp [jsTruthy] at hfin
  | cons s rest ih =>
    intro st table hsock hb hfin
    cases s with
    | ack url =>
      have hnd := ackStep_no_data ctx table url
      simp only [runConn] at hfin ⊢
      simp only [dataPayloads_append, hnd, List.nil_append]
      exact ih st (ackStep ctx table url).fst hsock hb hfin
    | data p =>
      by_cases hpnil : p = []
      · subst hpnil
        have hshort : (splitOnChar spaceChar ([] : List Char)).length < 2 := by
          simp [splitOnChar]
        have hd := dataStep_first_short ctx ridBytes now st table [] hb hshort
        simp only [runConn, hd] at hfin ⊢
        have hrec := ih { st with bytesRead := List.length ([] : List Char) } table
          (by simpa using hsock) (by simp) (by simpa using hfin)
        simp only [dataPayloads_append]
        simpa [dataPayloads, stepPackets] using hrec
      · have hplen : p.length ≠ 0 := by
          intro hz
          exact hpnil (List.length_eq_zero.mp hz)
        by_cases hshort : (splitOnChar spaceChar p).length < 2
        · exfalso
          have hd := dataStep_first_short ctx ridBytes now st table p hb hshort
          simp only [runConn, hd] at hfin
          rcases runConn_socketId_const ctx ridBytes now rest
              { st with bytesRead := p.length } table (by simpa using hplen) with ⟨hc, _⟩
          rw [hc] at hfin
          simp only [hsock] at hfin
          simp [jsTruthy] at hfin
        · by_cases hpre : capMarker.isPrefixOf ((splitOnChar spaceChar p)[1]?.getD []) = true
          · have hd := dataStep_first_mint ctx ridBytes now st table p hb hshort hpre
            simp only [runConn, hd] at hfin ⊢
            rcases runConn_socketId_const ctx ridBytes now rest
                ⟨p.length,
                 some (namespaceOfUrlRaw ((splitOnChar spaceChar p)[1]?.getD [])),
                 some (mintRequestId ridBytes)⟩
                (match ctx.remotePort with
                 | some port =>
                   if port = 0 then table
                   else tableSet table port ⟨mintRequestId ridBytes, now⟩
                 | none => table) (by simpa using hplen) with ⟨hc, _⟩
            rw [hc] at hfin
            have hjs : jsTruthy
                (some (namespaceOfUrlRaw ((splitOnChar spaceChar p)[1]?.getD []))) = true := by
              simpa using hfin
            have hrec := runConn_data_exact ctx ridBytes now rest
                ⟨p.length,
                 some (namespaceOfUrlRaw ((splitOnChar spaceChar p)[1]?.getD [])),
                 some (mintRequestId ridBytes)⟩
                (match ctx.remotePort with
                 | some port =>
                   if port = 0 then table
                   else tableSet table port ⟨mintRequestId ridBytes, now⟩
                 | none => table) (by simpa using hplen) (by simpa using hjs)
            simp only [hjs, if_pos, List.cons_append, List.singleton_append]
            simp only [dataPayloads, stepPackets] at hrec
            simp [dataPayloads_append, dataPayloads, stepPackets, hrec]
          · exfalso
            have hpre2 : capMarker.isPrefixOf ((splitOnChar spaceChar p)[1]?.getD []) = false :=
              Bool.eq_false_iff.mpr hpre
            have hd := dataStep_first_nomatch ctx ridBytes now st table p hb hshort hpre2
            have hs : jsTruthy st.socketId = false := by rw [hsock]; rfl
            simp only [runConn, hd, hs] at hfin
            rcases runConn_socketId_const ctx ridBytes now rest
                { st with bytesRead := p.length } table (by simpa using hplen) with ⟨hc, _⟩
            rw [hc] at hfin
            simp only [hsock] at hfin
            simp [jsTruthy] at hfin

/-- Minting can return the empty string: 18 bytes of `0xff` give a base64 string of
24 slashes, all removed by the alphanumeric filter. The empty id is falsy in every
`if (!requestId)`-style check of the source. -/
theorem mintRequestId_can_be_empty : mintRequestId (List.replicate 18 255) = [] := by decide

/-- C3: after a `getRequestId` (takeAndRemove) call that successfully returns an
entry, a second call for the same key with no intervening insert reports not found;
no correlation entry is ever returned twice. -/
theorem c3_take_once (t : ConnTable) (rp : Option Nat) (r : List Char) (t2 : ConnTable)
    (h : getRequestId t rp = (some r, t2)) :
    (getRequestId t2 rp).fst = none := by
  match rp with
  | none => simp [getRequestId] at h
  | some port =>
    by_cases hp : port = 0
    · simp [getRequestId, hp] at h
    · cases hg : tableGet t port with
      | none => simp [getRequestId, hp, hg] at h
      | some e =>
        have ht2 : t2 = tableDelete t port := by
          simp [getRequestId, hp, hg] at h
          exact h.2.symm
        subst ht2
        simp [getRequestId, hp, tableGet_tableDelete]

/-- Witness for `c3_take_once` at a concrete one-entry table. -/
theorem c3_take_once_witness : (getRequestId ([] : ConnTable) (some 5)).fst = none :=
  c3_take_once [(5, ⟨"ab".data, 0⟩)] (some 5) ("ab".data) [] (by decide)

/-- C6: the sweep `cleanUpConnections` keeps an entry if and only if its age at sweep
time is at most the 30-second TTL; equivalently it removes exactly the entries whose
age strictly exceeds 30000 ms. -/
theorem c6_sweep_iff (now : Int) (t : ConnTable) (p : Nat) (e : ConnEntry) :
    (p, e) ∈ cleanUpConnections now t ↔ ((p, e) ∈ t ∧ now - e.time ≤ 30000) := by
  simp [cleanUpConnections, List.mem_filter, not_lt]

/-- C8: exactly one response is sent per request across the initial
`respondToSRequest` invocation and all scheduled retries; an invocation chain never
responds twice and never both retries and responds in a way that duplicates
responses. -/
theorem c8_single_response (httpsPort : Nat) (meta : ReqMeta)
    (lookup : Nat → Option (List Char)) (n : Nat) :
    countResponses (respondToSRequest httpsPort meta lookup n) = 1 :=
  countResponses_respondRec httpsPort meta lookup (3 - n)

/-- C9 counterexample: the minting operation is not injective on the random draws —
two distinct 18-byte strings produce the same capture identifier, so two distinct
captures can receive equal identifiers; unbounded collision resistance fails. -/
theorem c9_counterexample :
    mintRequestId (List.replicate 18 0) = mintRequestId (List.replicate 17 0 ++ [1]) ∧
    (List.replicate 18 0 : List Nat) ≠ List.replicate 17 0 ++ [1] := by
  constructor
  · decide
  · decide

/-- C9 (amended): the capture identifier is the first 6 alphanumeric characters of
the base64 encoding of the random bytes, so identifiers live in a finite set (length
at most 6 over a 62-character alphabet); collisions are therefore unavoidable over
unboundedly many captures, and distinctness holds only with high probability. -/
theorem c9_mint_bounded (randomBytes : List Nat) :
    (mintRequestId randomBytes).length ≤ 6 ∧
    ∀ c ∈ mintRequestId randomBytes, jsAlnum c = true := by
  constructor
  · simp [mintRequestId]
  · intro c hc
    have hmem : c ∈ (base64Encode randomBytes).filter jsAlnum :=
      List.mem_of_mem_take hc
    exact List.of_mem_filter hmem

/-- Witness for `c9_mint_bounded` at a concrete random draw. -/
theorem c9_mint_bounded_witness :
    (mintRequestId (List.replicate 18 0)).length ≤ 6 ∧ jsAlnum (Char.ofNat 65) = true :=
  ⟨(c9_mint_bounded (List.replicate 18 0)).1,
   (c9_mint_bounded (List.replicate 18 0)).2 (Char.ofNat 65) (by decide)⟩

/-- C10: for every request whose URL does not begin with `/s/`, `requestHandler`
sends exactly one response — status 400 (plain text) when the URL is falsy (absent),
otherwise 200 (a static file or the home page) — does not delegate to the capture
acknowledgement path, performs no correlation-table operation, and publishes no
capture event. -/
theorem c10_frame (files : List (List Char × List Char × List Char)) (home : List Char)
    (url : Option (List Char)) (table : ConnTable)
    (h : capMarker.isPrefixOf (url.getD []) = false) :
    (requestHandler files home url table).responses.length = 1 ∧
    (requestHandler files home url table).delegated = false ∧
    (requestHandler files home url table).table = table ∧
    (requestHandler files home url table).events = [] ∧
    (requestHandler files home url table).responses.head?.map (fun r => r.fst) =
      some (if jsTruthy url then 200 else 400) := by
  have h2 : ¬ capMarker <+: url.getD [] := by
    intro hc
    rw [← List.isPrefixOf_iff_prefix, h] at hc
    exact Bool.false_ne_true hc
  by_cases hu : jsTruthy url
  · cases hfile : (if url.getD [] = "/".data then none
        else lookupFile files (url.getD [])) with
    | none => simp [requestHandler, hu, h2, hfile]
    | some f => simp [requestHandler, hu, h2, hfile]
  · simp [requestHandler, hu]

/-- Witness for `c10_frame` at a concrete non-capture request. -/
theorem c10_frame_witness :
    (requestHandler [] [] (some "/x".data) []).responses.length = 1 ∧
    (requestHandler [] [] (some "/x".data) []).delegated = false ∧
    (requestHandler [] [] (some "/x".data) []).table = [] ∧
    (requestHandler [] [] (some "/x".data) []).events = [] ∧
    (requestHandler [] [] (some "/x".data) []).responses.head?.map (fun r => r.fst) =
      some (if jsTruthy (some "/x".data) then 200 else 400) :=
  c10_frame [] [] (some "/x".data) [] (by decide)

theorem indexOf_take_eq_takeWhile (l : List Char) :
    (match jsIndexOf questionMark l with
     | none => l
     | some i => l.take i) = l.takeWhile (fun c => !(c == questionMark)) := by
  induction l with
  | nil => rfl
  | cons c xs ih =>
    by_cases hc : c = questionMark
    · subst hc
      simp [jsIndexOf, List.takeWhile_cons]
    · have hb : (c == questionMark) = false := by simp [hc]
      simp only [jsIndexOf, if_neg hc, List.takeWhile_cons, hb, Bool.not_false, if_pos]
      cases hi : jsIndexOf questionMark xs with
      | none =>
        rw [hi] at ih
        simpa using ih
      | some i =>
        rw [hi] at ih
        simpa [List.take_succ_cons] using ih

theorem marker_append_index (t : List Char) :
    jsIndexOf questionMark (capMarker ++ t) =
      (jsIndexOf questionMark t).map (fun i => i + 3) := by
  have hm : capMarker = [Char.ofNat 47, Char.ofNat 115, Char.ofNat 47] := by decide
  have h1 : ¬ Char.ofNat 47 = questionMark := by decide
  have h2 : ¬ Char.ofNat 115 = questionMark := by decide
  rw [hm]
  simp only [List.cons_append, List.nil_append, jsIndexOf, if_neg h1, if_neg h2]
  cases hi : jsIndexOf questionMark t with
  | none => simp [hi]
  | some i => simp [hi]

/-- Core of the namespace-extraction characterization: on a URL of the form
`/s/` followed by anything, the code's slice-based extraction equals the spec's
take-up-to-query description. -/
theorem c7_core (t : List Char) :
    namespaceOfUrlRaw (capMarker ++ t) = namespaceSpec (capMarker ++ t) := by
  have hm : capMarker = [Char.ofNat 47, Char.ofNat 115, Char.ofNat 47] := by decide
  have hidx := marker_append_index t
  have hdrop : (capMarker ++ t).drop 3 = t := by
    rw [hm]
    rfl
  have hchar := indexOf_take_eq_takeWhile t
  cases hi : jsIndexOf questionMark t with
  | none =>
    rw [hi] at hchar
    unfold namespaceOfUrlRaw namespaceSpec
    rw [hidx, hi, hdrop]
    simp only [Option.map_none']
    show (capMarker ++ t).drop 3 = _
    rw [hdrop]
    exact hchar
  | some i =>
    rw [hi] at hchar
    unfold namespaceOfUrlRaw namespaceSpec
    rw [hidx, hi, hdrop]
    simp only [Option.map_some']
    have htake : (capMarker ++ t).take (i + 3) = capMarker ++ t.take i := by
      rw [hm]
      have h3 : i + 3 = ((i + 0) + 1 + 1) + 1 := by omega
      rw [h3]
      simp [List.take_succ_cons]
    show ((capMarker ++ t).take (i + 3)).drop 3 = _
    rw [htake, hm]
    simpa using hchar

/-- C7: the namespace extraction applied by the raw capture path and the one applied
by the structured acknowledgement path compute the same result on every URL string,
and on every URL that begins with the `/s/` marker that common result is exactly the
spec's description: everything after the marker up to and excluding the start of a
query string when a `?` is present, otherwise everything after the marker
(`namespaceSpec`). -/
theorem c7_namespace_agree (url : List Char) :
    namespaceOfUrlRaw url = namespaceOfUrlParsed url ∧
    (capMarker.isPrefixOf url = true → namespaceOfUrlRaw url = namespaceSpec url) := by
  refine ⟨rfl, ?_⟩
  intro h
  obtain ⟨t, ht⟩ := List.isPrefixOf_iff_prefix.mp h
  subst ht
  exact c7_core t

/-- Witness for `c7_namespace_agree` at a concrete capture URL with a query string. -/
theorem c7_namespace_agree_witness :
    namespaceOfUrlRaw "/s/abc?x=1".data = namespaceOfUrlParsed "/s/abc?x=1".data ∧
    namespaceOfUrlRaw "/s/abc?x=1".data = namespaceSpec "/s/abc?x=1".data :=
  ⟨(c7_namespace_agree ("/s/abc?x=1".data)).1,
   (c7_namespace_agree ("/s/abc?x=1".data)).2 (by decide)⟩

example : mintRequestId (List.replicate 18 0) = "AAAAAA".data := by decide
example : mintRequestId (List.replicate 18 255) = [] := by decide
example : splitOnChar spaceChar "GET /s/abc HTTP/1.1".data =
    ["GET".data, "/s/abc".data, "HTTP/1.1".data] := by decide
example : namespaceOfUrlRaw "/s/abc?x=1".data = "abc".data := by decide
example : namespaceOfUrlRaw "/s/abc".data = "abc".data := by decide

example :
    (connRun ⟨some 7, "1.2.3.4".data, "5.6.7.8".data, 80⟩ (List.replicate 18 0) 0
      [Step.data "POST /s/abc HTTP/1.1".data, Step.ack "/s/abc".data,
       Step.data "hello".data]).events =
    [Event.beginEv "abc".data "AAAAAA".data "1.2.3.4".data "5.6.7.8".data 80 0,
     Event.dataEv "abc".data "AAAAAA".data "POST /s/abc HTTP/1.1".data,
     Event.endEv "abc".data "AAAAAA".data,
     Event.dataEv "abc".data "AAAAAA".data "hello".data] := by decide

example :
    (connRun ⟨some 7, "1.2.3.4".data, "5.6.7.8".data, 80⟩ (List.replicate 18 0) 0
      [Step.data "GET /s/ HTTP/1.1".data]).events =
    [Event.beginEv [] "AAAAAA".data "1.2.3.4".data "5.6.7.8".data 80 0] := by decide

/-- Concrete request metadata used by claim C1's concrete instances. -/
def c1Meta : ReqMeta := ⟨[], "1.1".data, "GET".data, "/s/abc".data, 80⟩

/-- Lookup oracle that finds the entry (with id `ab`) on the third attempt. -/
def c1Lookup : Nat → Option (List Char) := fun k => if k = 2 then some ("ab".data) else none

/-- Lookup oracle that never finds an entry. -/
def c1LookupNone : Nat → Option (List Char) := fun _ => none

/-- Lookup oracle that finds an entry whose stored id is the empty string on the
initial attempt (producible by the system itself, see `mintRequestId_can_be_empty`)
and, the entry having been consumed by that take, nothing afterwards. -/
def c1LookupEmpty : Nat → Option (List Char) := fun k => if k = 0 then some [] else none

/-- C1 counterexample: a correlation entry IS found on the initial lookup (the take
returns `some []`), yet the client receives the 500 plain-text response after three
retries and no End event is emitted — `if (!requestId)` treats the empty-string
identifier as not-found, contradicting the claim that any found entry yields the
no-content success response and an End event. -/
theorem c1_counterexample :
    c1LookupEmpty 0 ≠ none ∧
    respondToSRequest 443 c1Meta c1LookupEmpty 0 =
      [SAction.scheduleRetry, SAction.scheduleRetry, SAction.scheduleRetry,
       SAction.respond 500 ("internal server error".data)] ∧
    (respondToSRequest 443 c1Meta c1LookupEmpty 0).all (fun a => !isEmitEnd a) = true := by
  refine ⟨by decide, by decide, by decide⟩

/-- C1 (amended): if the take returns a nonempty (truthy) identifier on the initial
attempt or on one of up to 3 retries, the chain is that many retries followed by the
empty 204 response and the `end` event carrying the parsed headers, version, method,
URL and scheme; if every attempt through the retry budget yields no entry or an
empty identifier, the chain is 3 retries followed by the 500 plain-text response,
and no End event is ever emitted for this request. -/
theorem c1_ack_retry_amended (httpsPort : Nat) (meta : ReqMeta)
    (lookup : Nat → Option (List Char)) :
    (∀ m, m ≤ 3 → (∀ k, k < m → jsTruthy (lookup k) = false) →
       jsTruthy (lookup m) = true →
       respondToSRequest httpsPort meta lookup 0 =
         List.replicate m SAction.scheduleRetry ++
           [SAction.respond 204 [],
            SAction.emitEnd (namespaceOfUrlParsed meta.url) ((lookup m).getD [])
              meta.rawHeaders meta.httpVersion meta.method meta.url
              (if meta.localPort = httpsPort then "https".data else "http".data)]) ∧
    ((∀ k, k ≤ 3 → jsTruthy (lookup k) = false) →
       respondToSRequest httpsPort meta lookup 0 =
         [SAction.scheduleRetry, SAction.scheduleRetry, SAction.scheduleRetry,
          SAction.respond 500 ("internal server error".data)] ∧
       (respondToSRequest httpsPort meta lookup 0).all (fun a => !isEmitEnd a) = true) := by
  constructor
  · intro m hm hfal htr
    have hs := respond_success_trace httpsPort meta lookup m 0 (by omega)
      (fun k _ hk2 => hfal k (by omega)) (by simpa using htr)
    simpa [sSuccessActions] using hs
  · intro hall
    have ht := respond_failure_trace httpsPort meta lookup hall
    refine ⟨ht, ?_⟩
    rw [ht]
    decide

/-- Witness for `c1_ack_retry_amended`: the success branch found on the third
attempt, and the failure branch with an always-empty oracle. -/
theorem c1_ack_retry_witness :
    (respondToSRequest 443 c1Meta c1Lookup 0 =
      List.replicate 2 SAction.scheduleRetry ++
        [SAction.respond 204 [],
         SAction.emitEnd (namespaceOfUrlParsed c1Meta.url) ((c1Lookup 2).getD [])
           c1Meta.rawHeaders c1Meta.httpVersion c1Meta.method c1Meta.url
           (if c1Meta.localPort = 443 then "https".data else "http".data)]) ∧
    (respondToSRequest 443 c1Meta c1LookupNone 0 =
      [SAction.scheduleRetry, SAction.scheduleRetry, SAction.scheduleRetry,
       SAction.respond 500 ("internal server error".data)] ∧
     (respondToSRequest 443 c1Meta c1LookupNone 0).all (fun a => !isEmitEnd a) = true) :=
  ⟨(c1_ack_retry_amended 443 c1Meta c1Lookup).1 2 (by decide)
      (fun k hk => by
        match k, hk with
        | 0, _ => decide
        | 1, _ => decide)
      (by decide),
   (c1_ack_retry_amended 443 c1Meta c1LookupNone).2 (fun _ _ => rfl)⟩

/-- True iff no event of any kind follows the first End event in the list (vacuously
true when no End occurs). -/
def noneAfterFirstEnd : List Event → Bool
  | [] => true
  | e :: rest => if isEndE e then rest.isEmpty else noneAfterFirstEnd rest

/-- The per-capture ordering invariant exactly as claimed: Begin events all precede
every other event (they form a front block), there is exactly one End, and no event
of any kind is published after the End. -/
def orderedCapture (evs : List Event) : Bool :=
  ((evs.takeWhile isBeginE).length == (evs.filter isBeginE).length) &&
  (evs.countP isEndE == 1) &&
  noneAfterFirstEnd evs

/-- Concrete connection context shared by the concrete capture runs. -/
def ctxA : ConnCtx := ⟨some 7, "1.2.3.4".data, "5.6.7.8".data, 80⟩

/-- Concrete 18-byte random draw (all zeros, giving capture id `AAAAAA`). -/
def ridZeros : List Nat := List.replicate 18 0

/-- Schedule in which the body chunk arrives after the acknowledgement ran. -/
def c2Steps : List Step :=
  [Step.data "POST /s/abc HTTP/1.1".data, Step.ack "/s/abc".data, Step.data "hello".data]

/-- C2 counterexample: when a chunk arrives on the raw socket after the structured
acknowledgement has already emitted the End event (headers parsed and matched before
the body arrived), the published sequence is Begin, Data, End, Data — an event after
the End — so the claimed ordering invariant is violated by the code. -/
theorem c2_counterexample :
    (connRun ctxA ridZeros 0 c2Steps).events =
      [Event.beginEv "abc".data "AAAAAA".data "1.2.3.4".data "5.6.7.8".data 80 0,
       Event.dataEv "abc".data "AAAAAA".data "POST /s/abc HTTP/1.1".data,
       Event.endEv "abc".data "AAAAAA".data,
       Event.dataEv "abc".data "AAAAAA".data "hello".data] ∧
    orderedCapture (connRun ctxA ridZeros 0 c2Steps).events = false := by
  refine ⟨by decide, by decide⟩

/-- C2 (amended): over every schedule of one connection, the Begin event (at most
one is ever published) precedes every other published event, at most one End event
is published, and an End is only published when a Begin was (hence after it); but
Data events may still be published after the End when further chunks arrive after
the acknowledgement (see the counterexample), so the sequence is Begin then a mix of
Data and at most one End, rather than Begin, Data*, End with nothing after End. -/
theorem c2_order_amended (ctx : ConnCtx) (ridBytes : List Nat) (now : Int)
    (steps : List Step) :
    ((connRun ctx ridBytes now steps).events.filter isBeginE).length ≤ 1 ∧
    (connRun ctx ridBytes now steps).events.takeWhile isBeginE =
      (connRun ctx ridBytes now steps).events.filter isBeginE ∧
    (connRun ctx ridBytes now steps).events.countP isEndE ≤
      ((connRun ctx ridBytes now steps).events.filter isBeginE).length := by
  rcases runConn_pre ctx ridBytes now steps initConnState rfl with h | ⟨b, r2, he, hbb, ha, hc⟩
  · simp only [connRun] at h ⊢
    rw [h]
    simp
  · simp only [connRun] at he ⊢
    rw [he]
    have hf : r2.filter isBeginE = [] := by
      rw [List.filter_eq_nil_iff]
      intro a hma
      have hx := List.all_eq_true.mp ha a hma
      simpa using hx
    have htw : r2.takeWhile isBeginE = [] := by
      cases r2 with
      | nil => rfl
      | cons x xs =>
        have hx := List.all_eq_true.mp ha x (by simp)
        have hxf : isBeginE x = false := by simpa using hx
        simp [List.takeWhile_cons, hxf]
    have hbend : isEndE b = false := by
      cases b with
      | beginEv a1 a2 a3 a4 a5 a6 => rfl
      | dataEv a1 a2 a3 => rfl
      | endEv a1 a2 => simp [isBeginE] at hbb
    refine ⟨?_, ?_, ?_⟩
    · simp [List.filter_cons, hbb, hf]
    · simp [List.takeWhile_cons, List.filter_cons, hbb, hf, htw]
    · simp only [List.countP_cons, List.filter_cons, hbb, if_pos, hbend]
      simp [hf]
      omega

/-- C4 counterexample: a first line `GET /s/ HTTP/1.1` mints a capture identifier
(the requestId closure variable is set, a correlation entry would be inserted, and a
Begin event is published), but the extracted namespace is the empty string, which is
falsy in `if (socketId)`, so no Data event is ever published for this connection:
the concatenation of Data chunks is empty although bytes were received. -/
theorem c4_counterexample :
    (connRun ctxA ridZeros 0 [Step.data "GET /s/ HTTP/1.1".data]).state.requestId ≠ none ∧
    (dataPayloads
        (connRun ctxA ridZeros 0 [Step.data "GET /s/ HTTP/1.1".data]).events).flatten = [] ∧
    ("GET /s/ HTTP/1.1".data : List Char) ≠ [] := by
  refine ⟨by decide, by decide, by decide⟩

/-- C4 (amended): for every connection whose capture was minted with a nonempty
(truthy) namespace, the concatenation of the byte chunks of all Data events
published for its capture identifier, in publish order, equals the exact sequence of
bytes received on that connection from the first byte onward. Captures minted with
the empty namespace publish no Data events at all (see the counterexample). -/
theorem c4_roundtrip_amended (ctx : ConnCtx) (ridBytes : List Nat) (now : Int)
    (steps : List Step)
    (h : jsTruthy ((connRun ctx ridBytes now steps).state.socketId) = true) :
    (dataPayloads (connRun ctx ridBytes now steps).events).flatten =
      (stepPackets steps).flatten :=
  runConn_roundtrip_gen ctx ridBytes now steps initConnState [] rfl rfl h

/-- Witness for `c4_roundtrip_amended` on a two-chunk capture. -/
theorem c4_roundtrip_witness :
    (dataPayloads (connRun ctxA ridZeros 0
        [Step.data "GET /s/abc HTTP/1.1".data, Step.data "XY".data]).events).flatten =
      (stepPackets [Step.data "GET /s/abc HTTP/1.1".data, Step.data "XY".data]).flatten :=
  c4_roundtrip_amended ctxA ridZeros 0
    [Step.data "GET /s/abc HTTP/1.1".data, Step.data "XY".data] (by decide)

/-- Connection context without a remote port (`socket.remotePort === undefined`). -/
def ctxNoPort : ConnCtx := ⟨none, "1.2.3.4".data, "5.6.7.8".data, 80⟩

/-- C5 counterexample: on a connection whose remote port is `undefined`, the first
chunk `GET /s/x HTTP/1.1` reaches the otherwise-branch — it mints an identifier and
publishes a Begin event — but `if (port)` fails, so no correlation entry is
inserted, contradicting the claim's unconditional insertion. -/
theorem c5_counterexample :
    (dataStep ctxNoPort ridZeros 0 initConnState [] "GET /s/x HTTP/1.1".data).snd.fst = [] ∧
    (dataStep ctxNoPort ridZeros 0 initConnState []
        "GET /s/x HTTP/1.1".data).fst.requestId ≠ none ∧
    (dataStep ctxNoPort ridZeros 0 initConnState [] "GET /s/x HTTP/1.1".data).snd.snd ≠ [] := by
  refine ⟨by decide, by decide, by decide⟩

/-- C5 (amended): on the first chunk of every connection, splitting on the space
character: if fewer than two tokens are present, or the second token does not begin
with `/s/`, capture is abandoned — the table is untouched and no event is published;
otherwise a capture identifier is minted, a correlation entry keyed by the
connection's remote port with the current time is inserted provided the connection
has a nonzero remote port (no entry is inserted when the port is absent or zero),
and a Begin event with sender/server addressing metadata and the current time is the
first event published. -/
theorem c5_first_chunk_amended (ctx : ConnCtx) (ridBytes : List Nat) (now : Int)
    (table : ConnTable) (packet : List Char) :
    (((splitOnChar spaceChar packet).length < 2 ∨
        capMarker.isPrefixOf ((splitOnChar spaceChar packet)[1]?.getD []) = false) →
      dataStep ctx ridBytes now initConnState table packet =
        ({ initConnState with bytesRead := packet.length }, table, [])) ∧
    (¬(splitOnChar spaceChar packet).length < 2 →
      capMarker.isPrefixOf ((splitOnChar spaceChar packet)[1]?.getD []) = true →
      (dataStep ctx ridBytes now initConnState table packet).fst.requestId =
          some (mintRequestId ridBytes) ∧
        (dataStep ctx ridBytes now initConnState table packet).fst.socketId =
          some (namespaceOfUrlRaw ((splitOnChar spaceChar packet)[1]?.getD [])) ∧
        (∀ port, ctx.remotePort = some port → port ≠ 0 →
          (dataStep ctx ridBytes now initConnState table packet).snd.fst =
            tableSet table port ⟨mintRequestId ridBytes, now⟩) ∧
        ((ctx.remotePort = none ∨ ctx.remotePort = some 0) →
          (dataStep ctx ridBytes now initConnState table packet).snd.fst = table) ∧
        (dataStep ctx ridBytes now initConnState table packet).snd.snd.head? =
          some (Event.beginEv (namespaceOfUrlRaw ((splitOnChar spaceChar packet)[1]?.getD []))
            (mintRequestId ridBytes) ctx.remoteAddress ctx.localAddress ctx.localPort now)) := by
  constructor
  · intro h
    rcases h with hshort | hns
    · exact dataStep_first_short ctx ridBytes now initConnState table packet rfl hshort
    · by_cases hshort : (splitOnChar spaceChar packet).length < 2
      · exact dataStep_first_short ctx ridBytes now initConnState table packet rfl hshort
      · have hd := dataStep_first_nomatch ctx ridBytes now initConnState table packet rfl
          hshort hns
        rw [hd]
        rfl
  · intro hlong hns
    have hd := dataStep_first_mint ctx ridBytes now initConnState table packet rfl hlong hns
    rw [hd]
    refine ⟨rfl, rfl, ?_, ?_, ?_⟩
    · intro port hport hz
      rw [hport]
      simp [hz]
    · intro hcase
      rcases hcase with hn | h0
      · rw [hn]
      · rw [h0]
        simp
    · by_cases hjs : jsTruthy
          (some (namespaceOfUrlRaw ((splitOnChar spaceChar packet)[1]?.getD [])))
      · simp [hjs]
      · simp [hjs]

/-- Witness for `c5_first_chunk_amended`: the abandon branch on a spaceless chunk
and the mint branch on a well-formed capture request. -/
theorem c5_first_chunk_witness :
    dataStep ctxA ridZeros 0 initConnState [] "xyz".data =
        ({ initConnState with bytesRead := ("xyz".data : List Char).length }, [], []) ∧
    (dataStep ctxA ridZeros 0 initConnState [] "GET /s/abc HTTP/1.1".data).fst.requestId =
        some (mintRequestId ridZeros) :=
  ⟨(c5_first_chunk_amended ctxA ridZeros 0 [] ("xyz".data)).1 (Or.inl (by decide)),
   ((c5_first_chunk_amended ctxA ridZeros 0 [] ("GET /s/abc HTTP/1.1".data)).2
      (by decide) (by decide)).1⟩
